import Mathlib

/-!
Verification of the bozloader upload review workflow.

The repository contains two near-duplicate Flask modules implementing the
same upload/review application:

* `src/app/main.py` — uuid-keyed uploads, an extension allow-list, a
  `status != 'pending'` guard on approve/deny, and a `reviewed_date` column;
* `src/app/routes.py` — integer-keyed uploads, no extension check, no status
  guard on approve/deny, and no `reviewed_date` column.

Both are embedded below (namespaces `Main` and `Routes`).  The filesystem is
modelled as an association list from paths (a directory area plus a file
name) to file contents; SQLite rows are modelled as lists of records;
nondeterministic inputs of the handlers (the generated uuid, the current
time, the `secure_filename` sanitiser, and success or failure of disk
operations) are passed as explicit parameters.  Best-effort outbound calls
(emails, Discord messages, Plex scans) are recorded as an event list.
-/

namespace Bozloader

/-- The four directory areas used by the application: the pending and the
published (Plex-watched) directory, each split by media type. -/
inductive Area
  | pendingMovies
  | pendingTV
  | plexMovies
  | plexTV
deriving DecidableEq, Repr

/-- A filesystem path: an area together with a file name inside it. -/
structure FPath where
  area : Area
  name : String
deriving DecidableEq, Repr

/-- The filesystem: an association list from paths to file contents. -/
abbrev FS := List (FPath × String)

/-- Look a path up in the filesystem. -/
def fsLookup : FS → FPath → Option String
  | [], _ => none
  | (q, c) :: rest, p => if q = p then some c else fsLookup rest p

/-- Delete a path from the filesystem (`os.remove`, or the source side of
`shutil.move`). -/
def fsErase : FS → FPath → FS
  | [], _ => []
  | (q, c) :: rest, p => if q = p then fsErase rest p else (q, c) :: fsErase rest p

/-- Write a file, silently replacing any file already at that path
(`file.save`, or the destination side of `shutil.move`). -/
def fsInsert (fs : FS) (p : FPath) (c : String) : FS :=
  (p, c) :: fsErase fs p

/-- Outbound best-effort side effects attempted by the handlers. -/
inductive Event
  | notifyUpload (uploader filename : String)
  | notifyApproval (uploader filename : String)
  | notifyDenial (uploader filename notes : String)
  | notifyAdminEmail (filename : String)
  | discordMsg (message : String)
  | plexScan (library : String)
deriving DecidableEq, Repr

end Bozloader

namespace Bozloader.Main

/-- One row of the `uploads` table of `src/app/main.py` (`init_db`). -/
structure Upload where
  id : String
  filename : String
  original_filename : String
  media_type : String
  uploader_email : String
  upload_date : Nat
  status : String
  reviewed_date : Option Nat
  file_size : Nat
  notes : Option String
deriving DecidableEq, Repr

/-- The mutable world the handlers touch: the filesystem and the `uploads`
table. -/
structure State where
  fs : FS
  db : List Upload
deriving DecidableEq, Repr

/-- Model of `SELECT * FROM uploads WHERE id = ?` (ids are primary keys; the first
match is the row). -/
def dbFind : List Upload → String → Option Upload
  | [], _ => none
  | u :: rest, i => if u.id = i then some u else dbFind rest i

/-- Model of `UPDATE uploads SET ... WHERE id = ?`. -/
def dbUpdate (db : List Upload) (i : String) (f : Upload → Upload) : List Upload :=
  db.map fun u => if u.id = i then f u else u

/-- The extension allow-list of `allowed_file` in `src/app/main.py`. -/
def allowed_extensions : List String :=
  ["mp4", "mkv", "avi", "mov", "wmv", "flv", "webm",
   "m4v", "mpg", "mpeg", "ts", "vob", "iso"]

/-- The characters after the last `.` of the name, or `none` when the name
contains no dot (Python's `'.' in filename` guard plus
`filename.rsplit('.', 1)[1]`). -/
def extAfterLastDot : List Char → Option (List Char)
  | [] => none
  | c :: rest =>
    match extAfterLastDot rest with
    | some e => some e
    | none => if c = '.' then some rest else none

/-- Function `allowed_file` of `src/app/main.py`: the name contains a dot and the
part after the last dot, lowercased, is in the allow-list. -/
def allowed_file (filename : String) : Bool :=
  match extAfterLastDot filename.data with
  | none => false
  | some e => allowed_extensions.contains (String.mk (e.map Char.toLower))

/-- The pending directory for an upload's media type. -/
def pendDir (u : Upload) : Area :=
  if u.media_type = "tv" then Area.pendingTV else Area.pendingMovies

/-- The published (Plex) directory for an upload's media type. -/
def plexDir (u : Upload) : Area :=
  if u.media_type = "tv" then Area.plexTV else Area.plexMovies

/-- The Plex library name for an upload's media type
(`Config.PLEX_TV_LIBRARY` / `Config.PLEX_MOVIES_LIBRARY` defaults). -/
def plexLib (u : Upload) : String :=
  if u.media_type = "tv" then "TV Shows" else "Movies"

/-- Distinct exit points of the `upload_file` handler. -/
inductive UploadResult
  | noFileSelected
  | notAllowed
  | saveFailed
  | ok
deriving DecidableEq, Repr

/-- Distinct exit points of the `approve_upload` / `deny_upload` handlers. -/
inductive ReviewResult
  | ok
  | notFound
  | alreadyProcessed
  | moveFailed
deriving DecidableEq, Repr

/-- Handler `upload_file` of `src/app/main.py`.  Here `sf` stands for werkzeug's
`secure_filename`, `hasFile` for `'file' in request.files`, `upload_id` for
the generated `uuid.uuid4()` string, `now` for `datetime.now()`, and
`saveOk` for whether `file.save` succeeds. -/
def upload_file (sf : String → String) (hasFile : Bool)
    (fname content media_type user_email upload_id : String)
    (now : Nat) (saveOk : Bool) (s : State) :
    UploadResult × State × List Event :=
  if !hasFile then (.noFileSelected, s, [])
  else if fname = "" then (.noFileSelected, s, [])
  else if !allowed_file fname then (.notAllowed, s, [])
  else
    let final_filename := upload_id ++ "_" ++ sf fname
    let area := if media_type = "tv" then Area.pendingTV else Area.pendingMovies
    if !saveOk then (.saveFailed, s, [])
    else
      let fs2 := fsInsert s.fs ⟨area, final_filename⟩ content
      let r : Upload :=
        { id := upload_id, filename := final_filename, original_filename := fname,
          media_type := media_type, uploader_email := user_email,
          upload_date := now, status := "pending", reviewed_date := none,
          file_size := content.length, notes := none }
      (.ok, ⟨fs2, s.db ++ [r]⟩, [Event.notifyUpload user_email fname])

/-- Handler `approve_upload` of `src/app/main.py`.  Here `moveOk` models environmental
failure of `shutil.move` other than a missing source (unwritable
destination, permissions); `now` is `datetime.now()`. -/
def approve_upload (upload_id : String) (now : Nat) (moveOk : Bool)
    (s : State) : ReviewResult × State × List Event :=
  match dbFind s.db upload_id with
  | none => (.notFound, s, [])
  | some u =>
    if u.status ≠ "pending" then (.alreadyProcessed, s, [])
    else
      let src : FPath := ⟨pendDir u, u.filename⟩
      let dst : FPath := ⟨plexDir u, u.original_filename⟩
      match fsLookup s.fs src with
      | none => (.moveFailed, s, [])
      | some c =>
        if !moveOk then (.moveFailed, s, [])
        else
          let fs2 := fsInsert (fsErase s.fs src) dst c
          let db2 := dbUpdate s.db upload_id fun r =>
            { r with status := "approved", reviewed_date := some now }
          (.ok, ⟨fs2, db2⟩,
            [Event.plexScan (plexLib u),
             Event.notifyApproval u.uploader_email u.original_filename])

/-- Handler `deny_upload` of `src/app/main.py`.  Here `deleteRaises` models `os.remove`
raising; the handler catches and logs that exception and commits the
transition regardless. -/
def deny_upload (upload_id notes : String) (now : Nat) (deleteRaises : Bool)
    (s : State) : ReviewResult × State × List Event :=
  match dbFind s.db upload_id with
  | none => (.notFound, s, [])
  | some u =>
    if u.status ≠ "pending" then (.alreadyProcessed, s, [])
    else
      let src : FPath := ⟨pendDir u, u.filename⟩
      let fs2 := if (fsLookup s.fs src).isSome && !deleteRaises
                 then fsErase s.fs src else s.fs
      let db2 := dbUpdate s.db upload_id fun r =>
        { r with status := "denied", reviewed_date := some now,
                 notes := some notes }
      (.ok, ⟨fs2, db2⟩,
        [Event.notifyDenial u.uploader_email u.original_filename notes])

/-- Sort key for `ORDER BY reviewed_date DESC`: SQLite sorts NULL as the
smallest value, so it lands last in a descending ordering. -/
def rKey (u : Upload) : Nat :=
  match u.reviewed_date with
  | none => 0
  | some t => t + 1

/-- Relation for `ORDER BY upload_date DESC`. -/
def uploadDateDesc (a b : Upload) : Prop :=
  b.upload_date ≤ a.upload_date

/-- Relation for `ORDER BY reviewed_date DESC`. -/
def reviewedDesc (a b : Upload) : Prop :=
  rKey b ≤ rKey a

instance : DecidableRel uploadDateDesc :=
  fun a b => inferInstanceAs (Decidable (b.upload_date ≤ a.upload_date))

instance : DecidableRel reviewedDesc :=
  fun a b => inferInstanceAs (Decidable (rKey b ≤ rKey a))

instance : IsTotal Upload uploadDateDesc :=
  ⟨fun a b => Nat.le_total b.upload_date a.upload_date⟩

instance : IsTrans Upload uploadDateDesc :=
  ⟨fun _ _ _ hab hbc => le_trans hbc hab⟩

instance : IsTotal Upload reviewedDesc :=
  ⟨fun a b => Nat.le_total (rKey b) (rKey a)⟩

instance : IsTrans Upload reviewedDesc :=
  ⟨fun _ _ _ hab hbc => le_trans hbc hab⟩

/-- Handler `admin_panel` of `src/app/main.py`: the pending uploads ordered by
`upload_date DESC`, and the processed uploads ordered by
`reviewed_date DESC LIMIT 50`. -/
def admin_panel (s : State) : List Upload × List Upload :=
  (List.insertionSort uploadDateDesc
     (s.db.filter fun u => decide (u.status = "pending")),
   (List.insertionSort reviewedDesc
     (s.db.filter fun u => decide (u.status ≠ "pending"))).take 50)

/-- One invocation of a state-mutating handler of `src/app/main.py`, with
all its nondeterministic inputs. -/
inductive Op
  | upload (sf : String → String) (hasFile : Bool)
      (fname content media_type user_email upload_id : String)
      (now : Nat) (saveOk : Bool)
  | approve (upload_id : String) (now : Nat) (moveOk : Bool)
  | deny (upload_id notes : String) (now : Nat) (deleteRaises : Bool)

/-- The state reached after one handler invocation. -/
def applyOp : Op → State → State
  | .upload sf hf fn c mt ue uid now ok, s =>
      (upload_file sf hf fn c mt ue uid now ok s).2.1
  | .approve uid now mv, s => (approve_upload uid now mv s).2.1
  | .deny uid notes now dr, s => (deny_upload uid notes now dr s).2.1

/-- The `datetime.now()` value an invocation would stamp. -/
def opTime : Op → Nat
  | .upload _ _ _ _ _ _ _ now _ => now
  | .approve _ now _ => now
  | .deny _ _ now _ => now

end Bozloader.Main

namespace Bozloader.Routes

/-- One row of the `uploads` table of `src/app/routes.py` (`init_db`): an
autoincrement integer key and no `reviewed_date` column. -/
structure RUpload where
  id : Nat
  filename : String
  original_filename : String
  media_type : String
  uploader_email : String
  upload_date : Nat
  status : String
  file_size : Nat
  notes : String
deriving DecidableEq, Repr

/-- The mutable world of `src/app/routes.py`: the autoincrement counter,
the filesystem and the `uploads` table. -/
structure RState where
  nextId : Nat
  fs : FS
  db : List RUpload
deriving DecidableEq, Repr

/-- Model of `SELECT * FROM uploads WHERE id = ?`. -/
def rdbFind : List RUpload → Nat → Option RUpload
  | [], _ => none
  | u :: rest, i => if u.id = i then some u else rdbFind rest i

/-- Model of `UPDATE uploads SET ... WHERE id = ?`. -/
def rdbUpdate (db : List RUpload) (i : Nat) (f : RUpload → RUpload) :
    List RUpload :=
  db.map fun u => if u.id = i then f u else u

/-- The pending directory for an upload's media type. -/
def rPendDir (u : RUpload) : Area :=
  if u.media_type = "tv" then Area.pendingTV else Area.pendingMovies

/-- The published (Plex) directory for an upload's media type. -/
def rPlexDir (u : RUpload) : Area :=
  if u.media_type = "tv" then Area.plexTV else Area.plexMovies

/-- Distinct exit points of the `upload` handler of `src/app/routes.py`. -/
inductive RUploadResult
  | noFileSelected
  | saveFailed
  | ok
deriving DecidableEq, Repr

/-- Distinct exit points of the `approve` / `deny` handlers of
`src/app/routes.py`: success, the not-found flash, or the caught exception
flashed as an error. -/
inductive RReviewResult
  | ok
  | notFound
  | opError
deriving DecidableEq, Repr

/-- Handler `upload` of `src/app/routes.py`.  There is no extension check; the
stored name is `timestamp _ secure-name` where `ts` stands for
`datetime.now().strftime of %Y%m%d_%H%M%S` (one-second resolution); `sf`
stands for werkzeug's `secure_filename`, `unotes` for the form's notes
field, `now` for the row's `CURRENT_TIMESTAMP` default, and `saveOk` for
whether `file.save` succeeds (unhandled on failure: no row is inserted). -/
def upload (sf : String → String) (hasFile : Bool)
    (fname content media_type user_email unotes ts : String)
    (now : Nat) (saveOk : Bool) (s : RState) :
    RUploadResult × RState × List Event :=
  if !hasFile then (.noFileSelected, s, [])
  else if fname = "" then (.noFileSelected, s, [])
  else
    let filename := ts ++ "_" ++ sf fname
    let area := if media_type = "tv" then Area.pendingTV else Area.pendingMovies
    if !saveOk then (.saveFailed, s, [])
    else
      let fs2 := fsInsert s.fs ⟨area, filename⟩ content
      let r : RUpload :=
        { id := s.nextId, filename := filename, original_filename := fname,
          media_type := media_type, uploader_email := user_email,
          upload_date := now, status := "pending",
          file_size := content.length, notes := unotes }
      (.ok, ⟨s.nextId + 1, fs2, s.db ++ [r]⟩,
        [Event.notifyAdminEmail fname, Event.discordMsg fname])

/-- Handler `approve` of `src/app/routes.py`.  There is no status guard: any found
upload is moved and marked approved; no timestamp is written.  The routes
module's Plex scan refreshes all sections. -/
def approve (upload_id : Nat) (moveOk : Bool) (s : RState) :
    RReviewResult × RState × List Event :=
  match rdbFind s.db upload_id with
  | none => (.notFound, s, [])
  | some u =>
    let src : FPath := ⟨rPendDir u, u.filename⟩
    let dst : FPath := ⟨rPlexDir u, u.original_filename⟩
    match fsLookup s.fs src with
    | none => (.opError, s, [])
    | some c =>
      if !moveOk then (.opError, s, [])
      else
        let fs2 := fsInsert (fsErase s.fs src) dst c
        let db2 := rdbUpdate s.db upload_id fun r => { r with status := "approved" }
        (.ok, ⟨s.nextId, fs2, db2⟩,
          [Event.notifyApproval u.uploader_email u.original_filename,
           Event.discordMsg u.original_filename,
           Event.plexScan "all"])

/-- Handler `deny` of `src/app/routes.py`.  There is no status guard, the form's
notes are never stored, and `os.remove` sits in the same `try` as the
database update: if the delete raises, the update is skipped. -/
def deny (upload_id : Nat) (deleteRaises : Bool) (s : RState) :
    RReviewResult × RState × List Event :=
  match rdbFind s.db upload_id with
  | none => (.notFound, s, [])
  | some u =>
    let src : FPath := ⟨rPendDir u, u.filename⟩
    if (fsLookup s.fs src).isSome && deleteRaises then (.opError, s, [])
    else
      let fs2 := if (fsLookup s.fs src).isSome then fsErase s.fs src else s.fs
      let db2 := rdbUpdate s.db upload_id fun r => { r with status := "denied" }
      (.ok, ⟨s.nextId, fs2, db2⟩,
        [Event.notifyDenial u.uploader_email u.original_filename "",
         Event.discordMsg u.original_filename])

/-- Relation for `ORDER BY upload_date DESC` on routes rows. -/
def rUploadDateDesc (a b : RUpload) : Prop :=
  b.upload_date ≤ a.upload_date

instance : DecidableRel rUploadDateDesc :=
  fun a b => inferInstanceAs (Decidable (b.upload_date ≤ a.upload_date))

instance : IsTotal RUpload rUploadDateDesc :=
  ⟨fun a b => Nat.le_total b.upload_date a.upload_date⟩

instance : IsTrans RUpload rUploadDateDesc :=
  ⟨fun _ _ _ hab hbc => le_trans hbc hab⟩

/-- Handler `admin` of `src/app/routes.py`: pending ordered by `upload_date DESC`,
and the processed (`recent`) list also ordered by `upload_date DESC`
(there is no review timestamp in this schema), `LIMIT 20`. -/
def admin (s : RState) : List RUpload × List RUpload :=
  (List.insertionSort rUploadDateDesc
     (s.db.filter fun u => decide (u.status = "pending")),
   (List.insertionSort rUploadDateDesc
     (s.db.filter fun u => decide (u.status ≠ "pending"))).take 20)

end Bozloader.Routes

namespace Bozloader

/-! Concrete scenarios used by the witness and counterexample theorems
below.  `wt…` definitions set up witness states, `cx…` definitions set up
counterexample states; `idsf` is the sanitiser instance used for concrete
runs (the concrete file names below are already in sanitised form). -/

/-- Identity sanitiser used in concrete runs. -/
def idsf : String → String := fun s => s

/-- An already-approved upload row of the main module. -/
def wt1u : Main.Upload :=
  { id := "u1", filename := "u1_Movie.mkv", original_filename := "Movie.mkv",
    media_type := "movie", uploader_email := "a@x.com", upload_date := 1,
    status := "approved", reviewed_date := some 2, file_size := 3,
    notes := none }

/-- State holding `wt1u` with an empty filesystem. -/
def wt1s : Main.State := ⟨[], [wt1u]⟩

/-- An already-approved upload row of the routes module. -/
def cx1r : Routes.RUpload :=
  { id := 1, filename := "20240101_120000_Movie.mkv",
    original_filename := "Movie.mkv", media_type := "movie",
    uploader_email := "a@x.com", upload_date := 10, status := "approved",
    file_size := 3, notes := "" }

/-- Routes state holding the approved row `cx1r`. -/
def cx1s : Routes.RState := ⟨2, [], [cx1r]⟩

/-- A pending upload row of the main module. -/
def wt2u : Main.Upload :=
  { id := "u2", filename := "u2_Show.mkv", original_filename := "Show.mkv",
    media_type := "tv", uploader_email := "b@x.com", upload_date := 4,
    status := "pending", reviewed_date := none, file_size := 7,
    notes := none }

/-- State holding the pending row `wt2u`. -/
def wt2s : Main.State := ⟨[], [wt2u]⟩

/-- A second already-approved routes row, for the C2 counterexample. -/
def cx2r : Routes.RUpload :=
  { id := 7, filename := "20240102_080000_Show.mkv",
    original_filename := "Show.mkv", media_type := "tv",
    uploader_email := "b@x.com", upload_date := 11, status := "approved",
    file_size := 9, notes := "" }

/-- Routes state holding the approved row `cx2r`. -/
def cx2s : Routes.RState := ⟨8, [], [cx2r]⟩

/-- A pending main-module row whose file is missing from the pending area. -/
def wt3u : Main.Upload :=
  { id := "u3", filename := "u3_Film.mkv", original_filename := "Film.mkv",
    media_type := "movie", uploader_email := "c@x.com", upload_date := 5,
    status := "pending", reviewed_date := none, file_size := 8,
    notes := none }

/-- State holding `wt3u` with an empty filesystem (the source file of the
pending upload is absent). -/
def wt3s : Main.State := ⟨[], [wt3u]⟩

/-- A pending routes row whose file is missing from the pending area. -/
def wt3r : Routes.RUpload :=
  { id := 3, filename := "20240103_090000_Film.mkv",
    original_filename := "Film.mkv", media_type := "movie",
    uploader_email := "c@x.com", upload_date := 12, status := "pending",
    file_size := 8, notes := "" }

/-- Routes state holding `wt3r` with an empty filesystem. -/
def wt3rs : Routes.RState := ⟨4, [], [wt3r]⟩

/-- Empty routes state used by the C4 counterexample run. -/
def cx4s : Routes.RState := ⟨1, [], []⟩

/-- First upload of `Movie.mkv` through the routes module, at timestamp
string `20240101_120000`. -/
def cx5a : Routes.RUploadResult × Routes.RState × List Event :=
  Routes.upload idsf true "Movie.mkv" "AAA" "movie" "a@x.com" "" "20240101_120000" 10 true ⟨1, [], []⟩

/-- Second upload of `Movie.mkv` through the routes module within the same
second (the same strftime timestamp string). -/
def cx5b : Routes.RUploadResult × Routes.RState × List Event :=
  Routes.upload idsf true "Movie.mkv" "BBB" "movie" "b@x.com" "" "20240101_120000" 10 true cx5a.2.1

/-- A pending main-module row for the C6 witness, with its file present. -/
def wt6u : Main.Upload :=
  { id := "u6", filename := "u6_Doc.mkv", original_filename := "Doc.mkv",
    media_type := "movie", uploader_email := "d@x.com", upload_date := 6,
    status := "pending", reviewed_date := none, file_size := 2,
    notes := none }

/-- State holding `wt6u` and its pending file. -/
def wt6s : Main.State :=
  ⟨[(⟨Area.pendingMovies, "u6_Doc.mkv"⟩, "DD")], [wt6u]⟩

/-- An already-denied routes row, for the C6 counterexample. -/
def cx6r : Routes.RUpload :=
  { id := 9, filename := "20240104_070000_Clip.mkv",
    original_filename := "Clip.mkv", media_type := "movie",
    uploader_email := "e@x.com", upload_date := 13, status := "approved",
    file_size := 4, notes := "" }

/-- Routes state holding the approved row `cx6r`. -/
def cx6s : Routes.RState := ⟨10, [], [cx6r]⟩

/-- A pending main-module row whose pending file is absent, for the C7
witness. -/
def wt7u : Main.Upload :=
  { id := "u7", filename := "u7_Ep.mkv", original_filename := "Ep.mkv",
    media_type := "tv", uploader_email := "f@x.com", upload_date := 7,
    status := "pending", reviewed_date := none, file_size := 6,
    notes := none }

/-- State holding `wt7u` with an empty filesystem. -/
def wt7s : Main.State := ⟨[], [wt7u]⟩

/-- A pending routes row whose pending file is absent, for the C7
witness. -/
def wt7r : Routes.RUpload :=
  { id := 5, filename := "20240105_060000_Ep.mkv",
    original_filename := "Ep.mkv", media_type := "tv",
    uploader_email := "f@x.com", upload_date := 14, status := "pending",
    file_size := 6, notes := "" }

/-- Routes state holding `wt7r` with an empty filesystem. -/
def wt7rs : Routes.RState := ⟨6, [], [wt7r]⟩

/-- Routes state after uploading `B.mkv` (row id 1, upload date 3) and then
`A.mkv` (row id 2, upload date 5). -/
def cx8base : Routes.RState :=
  (Routes.upload idsf true "A.mkv" "aa" "movie" "u@x.com" "" "t1" 5 true
    (Routes.upload idsf true "B.mkv" "bb" "movie" "u@x.com" "" "t2" 3 true
      ⟨1, [], []⟩).2.1).2.1

/-- Run 1: approve row 2 (`A.mkv`) first, then row 1 (`B.mkv`); row 1 is
the most recently reviewed. -/
def cx8run1 : Routes.RState :=
  (Routes.approve 1 true (Routes.approve 2 true cx8base).2.1).2.1

/-- Run 2: the opposite review order — approve row 1 first, then row 2;
row 2 is the most recently reviewed. -/
def cx8run2 : Routes.RState :=
  (Routes.approve 2 true (Routes.approve 1 true cx8base).2.1).2.1

/-- A pending main-module row with its file present, for the C9 witness. -/
def wt9u : Main.Upload :=
  { id := "u9", filename := "u9_Bad.mkv", original_filename := "Bad.mkv",
    media_type := "movie", uploader_email := "g@x.com", upload_date := 8,
    status := "pending", reviewed_date := none, file_size := 5,
    notes := none }

/-- State holding `wt9u` and its pending file. -/
def wt9s : Main.State :=
  ⟨[(⟨Area.pendingMovies, "u9_Bad.mkv"⟩, "XX")], [wt9u]⟩

/-- First of two pending main-module rows sharing an original name, for
the C10 witness. -/
def wt10a : Main.Upload :=
  { id := "ua", filename := "ua_Same.mkv", original_filename := "Same.mkv",
    media_type := "movie", uploader_email := "h@x.com", upload_date := 9,
    status := "pending", reviewed_date := none, file_size := 1,
    notes := none }

/-- Second of two pending main-module rows sharing an original name, for
the C10 witness. -/
def wt10b : Main.Upload :=
  { id := "ub", filename := "ub_Same.mkv", original_filename := "Same.mkv",
    media_type := "movie", uploader_email := "i@x.com", upload_date := 10,
    status := "pending", reviewed_date := none, file_size := 2,
    notes := none }

/-- Main-module state holding the two rows `wt10a`, `wt10b` and their
pending files. -/
def wt10s : Main.State :=
  ⟨[(⟨Main.pendDir wt10a, wt10a.filename⟩, "CA"),
    (⟨Main.pendDir wt10b, wt10b.filename⟩, "CB")], [wt10a, wt10b]⟩

/-- First of two pending routes rows sharing an original name, for the
C10 witness. -/
def wt10ra : Routes.RUpload :=
  { id := 21, filename := "t1_Same.mkv", original_filename := "Same.mkv",
    media_type := "movie", uploader_email := "j@x.com", upload_date := 11,
    status := "pending", file_size := 3, notes := "" }

/-- Second of two pending routes rows sharing an original name, for the
C10 witness. -/
def wt10rb : Routes.RUpload :=
  { id := 22, filename := "t2_Same.mkv", original_filename := "Same.mkv",
    media_type := "movie", uploader_email := "k@x.com", upload_date := 12,
    status := "pending", file_size := 4, notes := "" }

/-- Routes state holding the two rows `wt10ra`, `wt10rb` and their pending
files. -/
def wt10rrs : Routes.RState :=
  ⟨3, [(⟨Routes.rPendDir wt10ra, wt10ra.filename⟩, "RA"),
       (⟨Routes.rPendDir wt10rb, wt10rb.filename⟩, "RB")], [wt10ra, wt10rb]⟩

end Bozloader

namespace Bozloader

@[simp] lemma fsLookup_insert_self (fs : FS) (p : FPath) (c : String) :
    fsLookup (fsInsert fs p c) p = some c := by
  simp [fsInsert, fsLookup]

lemma fsLookup_erase_ne (fs : FS) (p q : FPath) (h : p ≠ q) :
    fsLookup (fsErase fs p) q = fsLookup fs q := by
  induction fs with
  | nil => rfl
  | cons e rest ih =>
    obtain ⟨r, d⟩ := e
    by_cases hr : r = p
    · subst hr
      simp [fsErase, fsLookup, ih, h]
    · simp [fsErase, fsLookup, hr, ih]

lemma fsLookup_insert_ne (fs : FS) (p q : FPath) (c : String) (h : p ≠ q) :
    fsLookup (fsInsert fs p c) q = fsLookup fs q := by
  simp only [fsInsert, fsLookup, if_neg h]
  exact fsLookup_erase_ne fs p q h

end Bozloader

namespace Bozloader.Main

lemma dbFind_id (db : List Upload) (i : String) (u : Upload)
    (h : dbFind db i = some u) : u.id = i := by
  induction db with
  | nil => simp [dbFind] at h
  | cons v rest ih =>
    by_cases hv : v.id = i
    · simp [dbFind, hv] at h
      subst h; exact hv
    · simp [dbFind, hv] at h
      exact ih h

lemma dbFind_append (db l : List Upload) (i : String) (u : Upload)
    (h : dbFind db i = some u) : dbFind (db ++ l) i = some u := by
  induction db with
  | nil => simp [dbFind] at h
  | cons v rest ih =>
    by_cases hv : v.id = i <;> simp [dbFind, hv] at h ⊢
    · exact h
    · exact ih h

lemma dbFind_dbUpdate (db : List Upload) (i j : String) (f : Upload → Upload)
    (hf : ∀ u, (f u).id = u.id) :
    dbFind (dbUpdate db i f) j =
      (dbFind db j).map fun u => if u.id = i then f u else u := by
  induction db with
  | nil => rfl
  | cons v rest ih =>
    have hid : (if v.id = i then f v else v).id = v.id := by
      split
      · exact hf v
      · rfl
    simp only [dbUpdate, List.map_cons] at ih ⊢
    by_cases hvj : v.id = j
    · simp [dbFind, hid, if_pos hvj]
    · simp only [dbFind, hid, if_neg hvj]
      exact ih

/-- How one handler invocation can change a given row: either it leaves it
untouched, or the row was `pending` and the invocation stamped it
`approved` or `denied` together with `reviewed_date := now` (and, for
denial, the notes). -/
lemma applyOp_db (op : Op) (s : State) (i : String) (u u' : Upload)
    (hu : dbFind s.db i = some u)
    (hu' : dbFind (applyOp op s).db i = some u') :
    u' = u
    ∨ (u.status = "pending" ∧
        (u' = { u with status := "approved", reviewed_date := some (opTime op) }
         ∨ ∃ msg, u' = { u with status := "denied", reviewed_date := some (opTime op), notes := some msg })) := by
  have same : ∀ (h2 : dbFind s.db i = some u'), u' = u := fun h2 => by
    have h3 := hu.symm.trans h2
    exact (Option.some.inj h3).symm
  cases op with
  | upload sf hf fn c mt ue uid now ok =>
    simp only [applyOp, upload_file] at hu'
    split at hu'
    · exact Or.inl (same hu')
    · split at hu'
      · exact Or.inl (same hu')
      · split at hu'
        · exact Or.inl (same hu')
        · split at hu'
          · exact Or.inl (same hu')
          · rw [dbFind_append s.db _ i u hu] at hu'
            exact Or.inl (Option.some.inj hu').symm
  | approve uid now mv =>
    simp only [applyOp, approve_upload] at hu'
    split at hu'
    · exact Or.inl (same hu')
    · rename_i v hv
      split at hu'
      · exact Or.inl (same hu')
      · rename_i hpend
        split at hu'
        · exact Or.inl (same hu')
        · split at hu'
          · exact Or.inl (same hu')
          · dsimp only at hu'
            rw [dbFind_dbUpdate s.db uid i
                (fun r => { r with status := "approved", reviewed_date := some now })
                (fun r => rfl), hu] at hu'
            simp only [Option.map_some'] at hu'
            by_cases hui : u.id = uid
            · have hi : i = uid := (dbFind_id s.db i u hu).symm.trans hui
              have huv : v = u := by
                rw [hi] at hu
                exact Option.some.inj (hv.symm.trans hu)
              refine Or.inr ⟨?_, Or.inl ?_⟩
              · rw [← huv]
                exact not_not.mp hpend
              · rw [if_pos hui] at hu'
                exact (Option.some.inj hu').symm
            · rw [if_neg hui] at hu'
              exact Or.inl (Option.some.inj hu').symm
  | deny uid notes now dr =>
    simp only [applyOp, deny_upload] at hu'
    split at hu'
    · exact Or.inl (same hu')
    · rename_i v hv
      split at hu'
      · exact Or.inl (same hu')
      · rename_i hpend
        dsimp only at hu'
        rw [dbFind_dbUpdate s.db uid i
            (fun r => { r with status := "denied", reviewed_date := some now, notes := some notes })
            (fun r => rfl), hu] at hu'
        simp only [Option.map_some'] at hu'
        by_cases hui : u.id = uid
        · have hi : i = uid := (dbFind_id s.db i u hu).symm.trans hui
          have huv : v = u := by
            rw [hi] at hu
            exact Option.some.inj (hv.symm.trans hu)
          refine Or.inr ⟨?_, Or.inr ⟨notes, ?_⟩⟩
          · rw [← huv]
            exact not_not.mp hpend
          · rw [if_pos hui] at hu'
            exact (Option.some.inj hu').symm
        · rw [if_neg hui] at hu'
          exact Or.inl (Option.some.inj hu').symm

end Bozloader.Main

namespace Bozloader.Main

lemma pendDir_ne_plexDir (u v : Upload) : pendDir u ≠ plexDir v := by
  unfold pendDir plexDir
  by_cases h1 : u.media_type = "tv" <;> by_cases h2 : v.media_type = "tv" <;>
    simp [h1, h2]

end Bozloader.Main

namespace Bozloader

lemma string_append_cancel_r (a b t : String) (h : a ++ t = b ++ t) :
    a = b := by
  have h2 : (a ++ t).data = (b ++ t).data := by rw [h]
  rw [String.data_append, String.data_append] at h2
  exact String.ext (List.append_cancel_right h2)

/-- Claim C1: in the main module, once an upload's status is `approved` or
`denied`, a further `approve_upload` or `deny_upload` on that id returns
the already-processed error and performs no side effects: the state (both
filesystem and store) is returned unchanged and no move, delete,
notification or Plex scan is attempted.  (The duplicate routes module
lacks this guard; see the counterexample theorem.) -/
theorem main_second_review_rejected (i notes : String) (now now2 : Nat)
    (mv dr : Bool) (s : Main.State) (u : Main.Upload)
    (hu : Main.dbFind s.db i = some u)
    (hst : u.status = "approved" ∨ u.status = "denied") :
    Main.approve_upload i now mv s = (.alreadyProcessed, s, [])
    ∧ Main.deny_upload i notes now2 dr s = (.alreadyProcessed, s, []) := by
  have hne : u.status ≠ "pending" := by
    rcases hst with h | h <;> rw [h] <;> decide
  constructor
  · simp [Main.approve_upload, hu, hne]
  · simp [Main.deny_upload, hu, hne]

/-- Witness for `main_second_review_rejected` on the concrete approved
row `wt1u`. -/
theorem main_second_review_rejected_witness :
    Main.dbFind wt1s.db "u1" = some wt1u
    ∧ (wt1u.status = "approved" ∨ wt1u.status = "denied")
    ∧ (Main.approve_upload "u1" 5 true wt1s = (.alreadyProcessed, wt1s, [])
       ∧ Main.deny_upload "u1" "n" 6 false wt1s = (.alreadyProcessed, wt1s, [])) :=
  ⟨by decide, by decide,
   main_second_review_rejected "u1" "n" 5 6 true false wt1s wt1u
     (by decide) (by decide)⟩

/-- Claim C1 counterexample: the routes module has no status guard.  A
deny on the already-approved row `cx1r` is not rejected with
AlreadyReviewed: it returns success, rewrites the row's status, and
attempts the denial notifications again. -/
theorem routes_second_deny_not_rejected :
    cx1r.status = "approved"
    ∧ (Routes.deny 1 false cx1s).1 = .ok
    ∧ (Routes.deny 1 false cx1s).2.1.db = [{ cx1r with status := "denied" }]
    ∧ (Routes.deny 1 false cx1s).2.2 =
        [Event.notifyDenial "a@x.com" "Movie.mkv" "", Event.discordMsg "Movie.mkv"] := by
  decide

/-- Claim C2: in the main module no handler invocation moves a row out of
the allowed transitions: a row's status either stays what it was or goes
from `pending` to `approved` or to `denied`; in particular an `approved`
or `denied` row never reverts to `pending` and never flips to the other
terminal state.  (The routes module violates this; see the counterexample
theorem.) -/
theorem main_status_monotonic (op : Main.Op) (s : Main.State) (i : String)
    (u u' : Main.Upload)
    (hu : Main.dbFind s.db i = some u)
    (hu' : Main.dbFind (Main.applyOp op s).db i = some u') :
    u'.status = u.status
    ∨ (u.status = "pending" ∧ (u'.status = "approved" ∨ u'.status = "denied")) := by
  rcases Main.applyOp_db op s i u u' hu hu' with h | ⟨hp, h | ⟨msg, h⟩⟩
  · exact Or.inl (by rw [h])
  · exact Or.inr ⟨hp, Or.inl (by rw [h])⟩
  · exact Or.inr ⟨hp, Or.inr (by rw [h])⟩

/-- Witness for `main_status_monotonic`: denying the concrete pending
row `wt2u` moves it `pending` to `denied`. -/
theorem main_status_monotonic_witness :
    Main.dbFind wt2s.db "u2" = some wt2u
    ∧ Main.dbFind (Main.applyOp (Main.Op.deny "u2" "bad" 7 false) wt2s).db "u2"
        = some { wt2u with status := "denied", reviewed_date := some 7, notes := some "bad" }
    ∧ (({ wt2u with status := "denied", reviewed_date := some 7, notes := some "bad" } : Main.Upload).status = wt2u.status
       ∨ (wt2u.status = "pending"
          ∧ (({ wt2u with status := "denied", reviewed_date := some 7, notes := some "bad" } : Main.Upload).status = "approved"
             ∨ ({ wt2u with status := "denied", reviewed_date := some 7, notes := some "bad" } : Main.Upload).status = "denied"))) :=
  ⟨by decide, by decide,
   main_status_monotonic (Main.Op.deny "u2" "bad" 7 false) wt2s "u2" wt2u
     { wt2u with status := "denied", reviewed_date := some 7, notes := some "bad" }
     (by decide) (by decide)⟩

/-- Claim C2 counterexample: in the routes module, denying the
already-approved row `cx2r` moves its status from `approved` to `denied` —
a transition between the two terminal states that the claim rules out. -/
theorem routes_approved_row_becomes_denied :
    (Routes.rdbFind cx2s.db 7).map Routes.RUpload.status = some "approved"
    ∧ (Routes.deny 7 false cx2s).1 = .ok
    ∧ (Routes.rdbFind (Routes.deny 7 false cx2s).2.1.db 7).map Routes.RUpload.status
        = some "denied" := by
  decide

/-- Claim C3: if the file move during approve fails — the pending source
file is missing, or the move itself errors (unwritable destination,
permissions) — approve returns the storage error, the store transition is
not performed, and the row still reads `pending`.  This holds in both the
main module and the routes module (in the latter the error is the caught
exception flashed to the admin). -/
theorem approve_move_failure_leaves_pending (i : String) (now : Nat)
    (mv : Bool) (s : Main.State) (u : Main.Upload)
    (hu : Main.dbFind s.db i = some u) (hp : u.status = "pending")
    (hfail : fsLookup s.fs ⟨Main.pendDir u, u.filename⟩ = none ∨ mv = false)
    (j : Nat) (rmv : Bool) (rs : Routes.RState) (ru : Routes.RUpload)
    (hru : Routes.rdbFind rs.db j = some ru)
    (hrfail : fsLookup rs.fs ⟨Routes.rPendDir ru, ru.filename⟩ = none ∨ rmv = false) :
    Main.approve_upload i now mv s = (.moveFailed, s, [])
    ∧ Main.dbFind (Main.approve_upload i now mv s).2.1.db i = some u
    ∧ u.status = "pending"
    ∧ Routes.approve j rmv rs = (.opError, rs, []) := by
  have hmain : Main.approve_upload i now mv s = (.moveFailed, s, []) := by
    rcases hfail with h | h
    · simp [Main.approve_upload, hu, hp, h]
    · rcases hl : fsLookup s.fs ⟨Main.pendDir u, u.filename⟩ with _ | c <;>
        simp [Main.approve_upload, hu, hp, h, hl]
  refine ⟨hmain, ?_, hp, ?_⟩
  · rw [hmain]
    exact hu
  · rcases hrfail with h | h
    · simp [Routes.approve, hru, h]
    · rcases hl : fsLookup rs.fs ⟨Routes.rPendDir ru, ru.filename⟩ with _ | c <;>
        simp [Routes.approve, hru, h, hl]

/-- Witness for `approve_move_failure_leaves_pending`: the pending rows
`wt3u` (main) and `wt3r` (routes) with empty filesystems. -/
theorem approve_move_failure_leaves_pending_witness :
    Main.dbFind wt3s.db "u3" = some wt3u
    ∧ wt3u.status = "pending"
    ∧ (fsLookup wt3s.fs ⟨Main.pendDir wt3u, wt3u.filename⟩ = none ∨ true = false)
    ∧ Routes.rdbFind wt3rs.db 3 = some wt3r
    ∧ (fsLookup wt3rs.fs ⟨Routes.rPendDir wt3r, wt3r.filename⟩ = none ∨ true = false)
    ∧ (Main.approve_upload "u3" 5 true wt3s = (.moveFailed, wt3s, [])
       ∧ Main.dbFind (Main.approve_upload "u3" 5 true wt3s).2.1.db "u3" = some wt3u
       ∧ wt3u.status = "pending"
       ∧ Routes.approve 3 true wt3rs = (.opError, wt3rs, [])) :=
  ⟨by decide, by decide, Or.inl (by decide), by decide, Or.inl (by decide),
   approve_move_failure_leaves_pending "u3" 5 true wt3s wt3u (by decide)
     (by decide) (Or.inl (by decide)) 3 true wt3rs wt3r (by decide)
     (Or.inl (by decide))⟩

end Bozloader

namespace Bozloader

/-- Claim C4: in the main module a submit whose file name has a disallowed
extension is rejected before any file is written and before any store row
is created — the state comes back unchanged — and, more generally, when
the disk save fails no store row is created either.  (The routes module
performs no extension check; see the counterexample theorem.) -/
theorem main_upload_validates_before_write (sf : String → String)
    (fname content mt email uid : String) (now : Nat) (saveOk : Bool)
    (s : Main.State)
    (hbad : Main.allowed_file fname = false) (hne : fname ≠ "") :
    Main.upload_file sf true fname content mt email uid now saveOk s
      = (.notAllowed, s, [])
    ∧ ∀ (sf2 : String → String) (hf : Bool) (f2 c2 m2 e2 u2 : String) (n2 : Nat),
        (Main.upload_file sf2 hf f2 c2 m2 e2 u2 n2 false s).2.1.db = s.db := by
  constructor
  · simp [Main.upload_file, hne, hbad]
  · intro sf2 hf f2 c2 m2 e2 u2 n2
    simp only [Main.upload_file]
    split
    · rfl
    · split
      · rfl
      · split
        · rfl
        · rfl

/-- Witness for `main_upload_validates_before_write`: submitting
`notes.txt` against an empty state is rejected unchanged, and a failed
save of `Clip.mkv` creates no row. -/
theorem main_upload_validates_before_write_witness :
    Main.allowed_file "notes.txt" = false
    ∧ ("notes.txt" : String) ≠ ""
    ∧ Main.upload_file idsf true "notes.txt" "data" "movie" "a@x.com" "id1" 3 true ⟨[], []⟩
        = (.notAllowed, ⟨[], []⟩, [])
    ∧ (Main.upload_file idsf true "Clip.mkv" "cc" "movie" "a@x.com" "id2" 4 false ⟨[], []⟩).2.1.db = [] :=
  ⟨by decide, by decide,
   (main_upload_validates_before_write idsf "notes.txt" "data" "movie"
      "a@x.com" "id1" 3 true ⟨[], []⟩ (by decide) (by decide)).1,
   (main_upload_validates_before_write idsf "notes.txt" "data" "movie"
      "a@x.com" "id1" 3 true ⟨[], []⟩ (by decide) (by decide)).2
     idsf true "Clip.mkv" "cc" "movie" "a@x.com" "id2" 4⟩

/-- Claim C4 counterexample: the routes upload handler has no extension
check.  Submitting `notes.txt` (disallowed under the main module's
allow-list) succeeds: the file is written into the pending area and a
store row is created. -/
theorem routes_upload_accepts_txt :
    Main.allowed_file "notes.txt" = false
    ∧ (Routes.upload idsf true "notes.txt" "data" "movie" "a@x.com" "" "20240101_120000" 10 true cx4s).1 = .ok
    ∧ fsLookup (Routes.upload idsf true "notes.txt" "data" "movie" "a@x.com" "" "20240101_120000" 10 true cx4s).2.1.fs
        ⟨Area.pendingMovies, "20240101_120000_notes.txt"⟩ = some "data"
    ∧ (Routes.upload idsf true "notes.txt" "data" "movie" "a@x.com" "" "20240101_120000" 10 true cx4s).2.1.db.length = 1 := by
  decide

/-- Claim C5: in the main module the stored name is the generated uuid, an
underscore, then the sanitised original name; two successful submits of
the same original name with distinct generated ids therefore append rows
whose stored filenames differ.  (The routes module prefixes a
second-resolution timestamp instead of an id, and collides; see the
counterexample theorem.) -/
theorem main_stored_names_distinct (sf : String → String)
    (fname c1 c2 mt1 mt2 e1 e2 id1 id2 : String) (n1 n2 : Nat)
    (s1 s2 : Main.State)
    (hid : id1 ≠ id2) (hok : Main.allowed_file fname = true) (hne : fname ≠ "") :
    ((Main.upload_file sf true fname c1 mt1 e1 id1 n1 true s1).2.1.db.getLast?).map Main.Upload.filename
      = some (id1 ++ "_" ++ sf fname)
    ∧ ((Main.upload_file sf true fname c2 mt2 e2 id2 n2 true s2).2.1.db.getLast?).map Main.Upload.filename
      = some (id2 ++ "_" ++ sf fname)
    ∧ id1 ++ "_" ++ sf fname ≠ id2 ++ "_" ++ sf fname := by
  refine ⟨?_, ?_, ?_⟩
  · simp [Main.upload_file, hne, hok, List.getLast?_concat]
  · simp [Main.upload_file, hne, hok, List.getLast?_concat]
  · intro h
    have h2 : id1 ++ "_" = id2 ++ "_" :=
      string_append_cancel_r (id1 ++ "_") (id2 ++ "_") (sf fname) h
    exact hid (string_append_cancel_r id1 id2 "_" h2)

/-- Witness for `main_stored_names_distinct`: two submits of `Movie.mkv`
with the distinct generated ids `ida` and `idb`. -/
theorem main_stored_names_distinct_witness :
    ("ida" : String) ≠ "idb"
    ∧ Main.allowed_file "Movie.mkv" = true
    ∧ ("Movie.mkv" : String) ≠ ""
    ∧ (((Main.upload_file idsf true "Movie.mkv" "c1" "movie" "a@x.com" "ida" 1 true ⟨[], []⟩).2.1.db.getLast?).map Main.Upload.filename
         = some ("ida" ++ "_" ++ idsf "Movie.mkv")
       ∧ ((Main.upload_file idsf true "Movie.mkv" "c2" "movie" "b@x.com" "idb" 2 true ⟨[], []⟩).2.1.db.getLast?).map Main.Upload.filename
         = some ("idb" ++ "_" ++ idsf "Movie.mkv")
       ∧ "ida" ++ "_" ++ idsf "Movie.mkv" ≠ "idb" ++ "_" ++ idsf "Movie.mkv") :=
  ⟨by decide, by decide, by decide,
   main_stored_names_distinct idsf "Movie.mkv" "c1" "c2" "movie" "movie"
     "a@x.com" "b@x.com" "ida" "idb" 1 2 ⟨[], []⟩ ⟨[], []⟩
     (by decide) (by decide) (by decide)⟩

/-- Claim C5 counterexample: the routes module prefixes the strftime value
`%Y%m%d_%H%M%S`, which has one-second resolution.  Two submits of
`Movie.mkv` within the same second (the runs `cx5a`, `cx5b`) store under
the SAME pending name: both rows carry it and the second save silently
overwrote the first upload's pending file. -/
theorem routes_stored_names_collide :
    cx5a.1 = .ok
    ∧ cx5b.1 = .ok
    ∧ cx5a.2.1.db.map Routes.RUpload.filename = ["20240101_120000_Movie.mkv"]
    ∧ cx5b.2.1.db.map Routes.RUpload.filename
        = ["20240101_120000_Movie.mkv", "20240101_120000_Movie.mkv"]
    ∧ fsLookup cx5b.2.1.fs ⟨Area.pendingMovies, "20240101_120000_Movie.mkv"⟩
        = some "BBB" := by
  decide

end Bozloader

namespace Bozloader.Routes

lemma rdbFind_id (db : List RUpload) (i : Nat) (u : RUpload)
    (h : rdbFind db i = some u) : u.id = i := by
  induction db with
  | nil => simp [rdbFind] at h
  | cons v rest ih =>
    by_cases hv : v.id = i
    · simp [rdbFind, hv] at h
      subst h; exact hv
    · simp [rdbFind, hv] at h
      exact ih h

lemma rdbFind_rdbUpdate (db : List RUpload) (i j : Nat) (f : RUpload → RUpload)
    (hf : ∀ u, (f u).id = u.id) :
    rdbFind (rdbUpdate db i f) j =
      (rdbFind db j).map fun u => if u.id = i then f u else u := by
  induction db with
  | nil => rfl
  | cons v rest ih =>
    have hid : (if v.id = i then f v else v).id = v.id := by
      split
      · exact hf v
      · rfl
    simp only [rdbUpdate, List.map_cons] at ih ⊢
    by_cases hvj : v.id = j
    · simp [rdbFind, hid, if_pos hvj]
    · simp only [rdbFind, hid, if_neg hvj]
      exact ih

lemma rPendDir_ne_rPlexDir (u v : RUpload) : rPendDir u ≠ rPlexDir v := by
  unfold rPendDir rPlexDir
  by_cases h1 : u.media_type = "tv" <;> by_cases h2 : v.media_type = "tv" <;>
    simp [h1, h2]

end Bozloader.Routes

namespace Bozloader

/-- Claim C6: in the main module, `status` and `reviewed_date` are updated
together, in the same store write, and only from the pending state: a row
whose status is not `pending` is never touched by any handler; when a
row's status does change, the row was `pending`, the new status is one of
the two terminal states, and `reviewed_date` is stamped with that
invocation's time in the same update; and `reviewed_date` never changes
unless the status changes.  (The routes module has no reviewed timestamp
and updates status from terminal states; see the counterexample
theorem.) -/
theorem main_reviewed_date_with_status (op : Main.Op) (s : Main.State)
    (i : String) (u u' : Main.Upload)
    (hu : Main.dbFind s.db i = some u)
    (hu' : Main.dbFind (Main.applyOp op s).db i = some u') :
    (u.status ≠ "pending" → u' = u)
    ∧ (u'.status ≠ u.status →
        u.status = "pending"
        ∧ (u'.status = "approved" ∨ u'.status = "denied")
        ∧ u'.reviewed_date = some (Main.opTime op))
    ∧ (u'.reviewed_date ≠ u.reviewed_date →
        u.status = "pending" ∧ u'.status ≠ u.status) := by
  rcases Main.applyOp_db op s i u u' hu hu' with h | ⟨hp, h | ⟨msg, h⟩⟩
  · subst h
    exact ⟨fun _ => rfl, fun hch => absurd rfl hch, fun hch => absurd rfl hch⟩
  · subst h
    refine ⟨fun hnp => absurd hp hnp, fun _ => ⟨hp, Or.inl rfl, rfl⟩,
            fun _ => ⟨hp, ?_⟩⟩
    simp only [hp]
    decide
  · subst h
    refine ⟨fun hnp => absurd hp hnp, fun _ => ⟨hp, Or.inr rfl, rfl⟩,
            fun _ => ⟨hp, ?_⟩⟩
    simp only [hp]
    decide

/-- Witness for `main_reviewed_date_with_status`: approving the concrete
pending row `wt6u` (whose pending file is present) stamps status and
reviewed date together. -/
theorem main_reviewed_date_with_status_witness :
    Main.dbFind wt6s.db "u6" = some wt6u
    ∧ Main.dbFind (Main.applyOp (Main.Op.approve "u6" 9 true) wt6s).db "u6"
        = some { wt6u with status := "approved", reviewed_date := some 9 }
    ∧ ((wt6u.status ≠ "pending" →
          ({ wt6u with status := "approved", reviewed_date := some 9 } : Main.Upload) = wt6u)
       ∧ (({ wt6u with status := "approved", reviewed_date := some 9 } : Main.Upload).status ≠ wt6u.status →
            wt6u.status = "pending"
            ∧ (({ wt6u with status := "approved", reviewed_date := some 9 } : Main.Upload).status = "approved"
               ∨ ({ wt6u with status := "approved", reviewed_date := some 9 } : Main.Upload).status = "denied")
            ∧ ({ wt6u with status := "approved", reviewed_date := some 9 } : Main.Upload).reviewed_date
                = some (Main.opTime (Main.Op.approve "u6" 9 true)))
       ∧ (({ wt6u with status := "approved", reviewed_date := some 9 } : Main.Upload).reviewed_date ≠ wt6u.reviewed_date →
            wt6u.status = "pending"
            ∧ ({ wt6u with status := "approved", reviewed_date := some 9 } : Main.Upload).status ≠ wt6u.status)) :=
  ⟨by decide, by decide,
   main_reviewed_date_with_status (Main.Op.approve "u6" 9 true) wt6s "u6"
     wt6u { wt6u with status := "approved", reviewed_date := some 9 }
     (by decide) (by decide)⟩

/-- Claim C6 counterexample: the routes module's deny updates the status
of the already-approved row `cx6r` — a store update made from a terminal
state, not "only from the Pending state", and with no review timestamp
written alongside (the routes schema has no reviewed column at all). -/
theorem routes_status_updated_from_terminal_state :
    (Routes.rdbFind cx6s.db 9).map Routes.RUpload.status = some "approved"
    ∧ (Routes.deny 9 false cx6s).1 = .ok
    ∧ (Routes.rdbFind (Routes.deny 9 false cx6s).2.1.db 9).map Routes.RUpload.status
        = some "denied" := by
  decide

/-- Claim C7: in both modules, denying a pending upload whose pending file
is already absent still succeeds: the absence is not an error and the row
transitions to `denied` (with notes and review time recorded by the main
module). -/
theorem deny_absent_file_still_succeeds (i notes : String) (now : Nat)
    (dr : Bool) (s : Main.State) (u : Main.Upload)
    (hu : Main.dbFind s.db i = some u) (hp : u.status = "pending")
    (habs : fsLookup s.fs ⟨Main.pendDir u, u.filename⟩ = none)
    (j : Nat) (rdr : Bool) (rs : Routes.RState) (ru : Routes.RUpload)
    (hru : Routes.rdbFind rs.db j = some ru) (hrp : ru.status = "pending")
    (hrabs : fsLookup rs.fs ⟨Routes.rPendDir ru, ru.filename⟩ = none) :
    (Main.deny_upload i notes now dr s).1 = .ok
    ∧ Main.dbFind (Main.deny_upload i notes now dr s).2.1.db i
        = some { u with status := "denied", reviewed_date := some now, notes := some notes }
    ∧ (Routes.deny j rdr rs).1 = .ok
    ∧ Routes.rdbFind (Routes.deny j rdr rs).2.1.db j
        = some { ru with status := "denied" } := by
  have hid : u.id = i := Main.dbFind_id s.db i u hu
  have hrid : ru.id = j := Routes.rdbFind_id rs.db j ru hru
  have hmain : Main.deny_upload i notes now dr s
      = (.ok,
         ⟨s.fs, Main.dbUpdate s.db i fun r =>
            { r with status := "denied", reviewed_date := some now, notes := some notes }⟩,
         [Event.notifyDenial u.uploader_email u.original_filename notes]) := by
    simp [Main.deny_upload, hu, hp, habs]
  have hroutes : Routes.deny j rdr rs
      = (.ok,
         ⟨rs.nextId, rs.fs, Routes.rdbUpdate rs.db j fun r => { r with status := "denied" }⟩,
         [Event.notifyDenial ru.uploader_email ru.original_filename "",
          Event.discordMsg ru.original_filename]) := by
    simp [Routes.deny, hru, hrabs]
  refine ⟨by rw [hmain], ?_, by rw [hroutes], ?_⟩
  · rw [hmain]
    dsimp only
    rw [Main.dbFind_dbUpdate s.db i i
        (fun r => { r with status := "denied", reviewed_date := some now, notes := some notes })
        (fun r => rfl), hu]
    simp [hid]
  · rw [hroutes]
    dsimp only
    rw [Routes.rdbFind_rdbUpdate rs.db j j
        (fun r => { r with status := "denied" })
        (fun r => rfl), hru]
    simp [hrid]

/-- Witness for `deny_absent_file_still_succeeds`: the pending rows
`wt7u` (main) and `wt7r` (routes), both with empty filesystems. -/
theorem deny_absent_file_still_succeeds_witness :
    Main.dbFind wt7s.db "u7" = some wt7u
    ∧ wt7u.status = "pending"
    ∧ fsLookup wt7s.fs ⟨Main.pendDir wt7u, wt7u.filename⟩ = none
    ∧ Routes.rdbFind wt7rs.db 5 = some wt7r
    ∧ wt7r.status = "pending"
    ∧ fsLookup wt7rs.fs ⟨Routes.rPendDir wt7r, wt7r.filename⟩ = none
    ∧ ((Main.deny_upload "u7" "late" 20 false wt7s).1 = .ok
       ∧ Main.dbFind (Main.deny_upload "u7" "late" 20 false wt7s).2.1.db "u7"
           = some { wt7u with status := "denied", reviewed_date := some 20, notes := some "late" }
       ∧ (Routes.deny 5 false wt7rs).1 = .ok
       ∧ Routes.rdbFind (Routes.deny 5 false wt7rs).2.1.db 5
           = some { wt7r with status := "denied" }) :=
  ⟨by decide, by decide, by decide, by decide, by decide, by decide,
   deny_absent_file_still_succeeds "u7" "late" 20 false wt7s wt7u
     (by decide) (by decide) (by decide) 5 false wt7rs wt7r
     (by decide) (by decide) (by decide)⟩

end Bozloader

namespace Bozloader

/-- Claim C8: the main module's admin panel lists pending uploads ordered
by submission time descending (a permutation of exactly the pending rows),
and processed rows ordered by review time descending (NULL last), capped
to the 50 most recent: the shown processed rows together with some
remainder permute all processed rows, and every shown row reviews no
earlier than every hidden one.  (The routes module orders its processed
list by upload date instead; see the counterexample theorem.) -/
theorem main_admin_panel_ordered (s : Main.State) :
    List.Sorted Main.uploadDateDesc (Main.admin_panel s).1
    ∧ ((Main.admin_panel s).1).Perm (s.db.filter fun u => decide (u.status = "pending"))
    ∧ List.Sorted Main.reviewedDesc (Main.admin_panel s).2
    ∧ (Main.admin_panel s).2.length ≤ 50
    ∧ ∃ rest : List Main.Upload,
        ((Main.admin_panel s).2 ++ rest).Perm
          (s.db.filter fun u => decide (u.status ≠ "pending"))
        ∧ ∀ x ∈ (Main.admin_panel s).2, ∀ y ∈ rest, Main.reviewedDesc x y := by
  simp only [Main.admin_panel]
  refine ⟨List.sorted_insertionSort _ _, List.perm_insertionSort _ _,
          List.Pairwise.sublist (List.take_sublist _ _) (List.sorted_insertionSort _ _),
          ?_, ?_⟩
  · simp [List.length_take]
  · refine ⟨(List.insertionSort Main.reviewedDesc
        (s.db.filter fun u => decide (u.status ≠ "pending"))).drop 50, ?_, ?_⟩
    · rw [List.take_append_drop]
      exact List.perm_insertionSort _ _
    · have hs := List.sorted_insertionSort Main.reviewedDesc
        (s.db.filter fun u => decide (u.status ≠ "pending"))
      rw [← List.take_append_drop 50 (List.insertionSort Main.reviewedDesc
        (s.db.filter fun u => decide (u.status ≠ "pending")))] at hs
      exact (List.pairwise_append.mp hs).2.2

/-- Claim C8 counterexample: the routes module orders its processed
(`recent`) list by upload date, not review time (its schema stores no
review timestamp at all).  In the run `cx8run1` row 2 was approved before
row 1, so review-time-descending order would list row 1 first; the handler
lists row 2 first (upload dates 5 over 3), and the opposite review order
`cx8run2` produces the identical listing. -/
theorem routes_recent_ignores_review_order :
    (Routes.admin cx8run1).2.map Routes.RUpload.id = [2, 1]
    ∧ (Routes.admin cx8run1).2.map Routes.RUpload.upload_date = [5, 3]
    ∧ (Routes.admin cx8run1).2.map Routes.RUpload.status = ["approved", "approved"]
    ∧ (Routes.admin cx8run2).2 = (Routes.admin cx8run1).2 := by
  decide

/-- Claim C9: the main module's deny catches and logs a failing file
delete and commits the denial anyway: with the delete raising, deny still
returns success, the filesystem is untouched (the pending file, if any,
remains), and the row reads `denied` with the review time and notes set;
moreover deny never returns the storage-error exit at all. -/
theorem main_deny_never_storage_error (i notes : String) (now : Nat)
    (s : Main.State) (u : Main.Upload)
    (hu : Main.dbFind s.db i = some u) (hp : u.status = "pending") :
    (Main.deny_upload i notes now true s).1 = .ok
    ∧ (Main.deny_upload i notes now true s).2.1.fs = s.fs
    ∧ Main.dbFind (Main.deny_upload i notes now true s).2.1.db i
        = some { u with status := "denied", reviewed_date := some now, notes := some notes }
    ∧ ∀ (i2 n2 : String) (t2 : Nat) (d2 : Bool) (s2 : Main.State),
        (Main.deny_upload i2 n2 t2 d2 s2).1 ≠ .moveFailed := by
  have hid : u.id = i := Main.dbFind_id s.db i u hu
  have hmain : Main.deny_upload i notes now true s
      = (.ok,
         ⟨s.fs, Main.dbUpdate s.db i fun r =>
            { r with status := "denied", reviewed_date := some now, notes := some notes }⟩,
         [Event.notifyDenial u.uploader_email u.original_filename notes]) := by
    simp [Main.deny_upload, hu, hp]
  refine ⟨by rw [hmain], by rw [hmain], ?_, ?_⟩
  · rw [hmain]
    dsimp only
    rw [Main.dbFind_dbUpdate s.db i i
        (fun r => { r with status := "denied", reviewed_date := some now, notes := some notes })
        (fun r => rfl), hu]
    simp [hid]
  · intro i2 n2 t2 d2 s2
    rcases h : Main.dbFind s2.db i2 with _ | v
    · simp [Main.deny_upload, h]
    · by_cases hv : v.status ≠ "pending" <;> simp [Main.deny_upload, h, hv]

/-- Witness for `main_deny_never_storage_error`: denying the pending row
`wt9u` while the delete raises leaves its file `u9_Bad.mkv` in place and
still records the denial. -/
theorem main_deny_never_storage_error_witness :
    Main.dbFind wt9s.db "u9" = some wt9u
    ∧ wt9u.status = "pending"
    ∧ (Main.deny_upload "u9" "nope" 30 true wt9s).1 = .ok
    ∧ (Main.deny_upload "u9" "nope" 30 true wt9s).2.1.fs = wt9s.fs
    ∧ Main.dbFind (Main.deny_upload "u9" "nope" 30 true wt9s).2.1.db "u9"
        = some { wt9u with status := "denied", reviewed_date := some 30, notes := some "nope" }
    ∧ (Main.deny_upload "zz" "n" 1 false ⟨[], []⟩).1 ≠ .moveFailed :=
  ⟨by decide, by decide,
   (main_deny_never_storage_error "u9" "nope" 30 wt9s wt9u (by decide) (by decide)).1,
   (main_deny_never_storage_error "u9" "nope" 30 wt9s wt9u (by decide) (by decide)).2.1,
   (main_deny_never_storage_error "u9" "nope" 30 wt9s wt9u (by decide) (by decide)).2.2.1,
   (main_deny_never_storage_error "u9" "nope" 30 wt9s wt9u (by decide) (by decide)).2.2.2
     "zz" "n" 1 false ⟨[], []⟩⟩

end Bozloader

namespace Bozloader

/-- Claim C10: approve publishes the file under its original name with no
collision avoidance, in both modules.  For two distinct pending uploads
sharing an original name and media type (distinct ids and distinct stored
names), approving the first publishes its content under the shared
original name, and approving the second also succeeds and silently
replaces that published file with the second upload's content. -/
theorem approve_overwrites_same_published_name
    (u1 u2 : Main.Upload) (c1 c2 : String) (n1 n2 : Nat) (s : Main.State)
    (hs : s = ⟨[(⟨Main.pendDir u1, u1.filename⟩, c1),
                (⟨Main.pendDir u2, u2.filename⟩, c2)], [u1, u2]⟩)
    (hid : u1.id ≠ u2.id) (hfn : u1.filename ≠ u2.filename)
    (horig : u1.original_filename = u2.original_filename)
    (hmt : u1.media_type = u2.media_type)
    (hp1 : u1.status = "pending") (hp2 : u2.status = "pending")
    (ru1 ru2 : Routes.RUpload) (rc1 rc2 : String) (rs : Routes.RState)
    (hrs : rs = ⟨3, [(⟨Routes.rPendDir ru1, ru1.filename⟩, rc1),
                     (⟨Routes.rPendDir ru2, ru2.filename⟩, rc2)], [ru1, ru2]⟩)
    (hrid : ru1.id ≠ ru2.id) (hrfn : ru1.filename ≠ ru2.filename)
    (hrorig : ru1.original_filename = ru2.original_filename)
    (hrmt : ru1.media_type = ru2.media_type)
    (hrp1 : ru1.status = "pending") (hrp2 : ru2.status = "pending") :
    (Main.approve_upload u1.id n1 true s).1 = .ok
    ∧ fsLookup (Main.approve_upload u1.id n1 true s).2.1.fs
        ⟨Main.plexDir u1, u1.original_filename⟩ = some c1
    ∧ (Main.approve_upload u2.id n2 true (Main.approve_upload u1.id n1 true s).2.1).1 = .ok
    ∧ fsLookup (Main.approve_upload u2.id n2 true (Main.approve_upload u1.id n1 true s).2.1).2.1.fs
        ⟨Main.plexDir u1, u1.original_filename⟩ = some c2
    ∧ (Routes.approve ru1.id true rs).1 = .ok
    ∧ fsLookup (Routes.approve ru1.id true rs).2.1.fs
        ⟨Routes.rPlexDir ru1, ru1.original_filename⟩ = some rc1
    ∧ (Routes.approve ru2.id true (Routes.approve ru1.id true rs).2.1).1 = .ok
    ∧ fsLookup (Routes.approve ru2.id true (Routes.approve ru1.id true rs).2.1).2.1.fs
        ⟨Routes.rPlexDir ru1, ru1.original_filename⟩ = some rc2 := by
  subst hs
  subst hrs
  have hsrc12 : (⟨Main.pendDir u1, u1.filename⟩ : FPath) ≠ ⟨Main.pendDir u2, u2.filename⟩ :=
    fun h => hfn (congrArg FPath.name h)
  have hfind1 : Main.dbFind [u1, u2] u1.id = some u1 := by
    simp [Main.dbFind]
  have hlk1 : fsLookup [(⟨Main.pendDir u1, u1.filename⟩, c1),
      (⟨Main.pendDir u2, u2.filename⟩, c2)] ⟨Main.pendDir u1, u1.filename⟩ = some c1 := by
    simp [fsLookup]
  have h1 : Main.approve_upload u1.id n1 true
      ⟨[(⟨Main.pendDir u1, u1.filename⟩, c1), (⟨Main.pendDir u2, u2.filename⟩, c2)], [u1, u2]⟩
      = (.ok,
         ⟨fsInsert (fsErase [(⟨Main.pendDir u1, u1.filename⟩, c1),
              (⟨Main.pendDir u2, u2.filename⟩, c2)] ⟨Main.pendDir u1, u1.filename⟩)
            ⟨Main.plexDir u1, u1.original_filename⟩ c1,
          Main.dbUpdate [u1, u2] u1.id fun r =>
            { r with status := "approved", reviewed_date := some n1 }⟩,
         [Event.plexScan (Main.plexLib u1),
          Event.notifyApproval u1.uploader_email u1.original_filename]) := by
    simp [Main.approve_upload, hfind1, hp1, hlk1]
  have hfind2 : Main.dbFind
      (Main.dbUpdate [u1, u2] u1.id fun r =>
        { r with status := "approved", reviewed_date := some n1 }) u2.id = some u2 := by
    have hne21 : ¬ (u2.id = u1.id) := fun h => hid h.symm
    simp [Main.dbUpdate, Main.dbFind, hne21, hid]
  have hdst1_ne_src2 : (⟨Main.plexDir u1, u1.original_filename⟩ : FPath)
      ≠ ⟨Main.pendDir u2, u2.filename⟩ :=
    fun h => Main.pendDir_ne_plexDir u2 u1 (congrArg FPath.area h).symm
  have hlk2 : fsLookup
      (fsInsert (fsErase [(⟨Main.pendDir u1, u1.filename⟩, c1),
          (⟨Main.pendDir u2, u2.filename⟩, c2)] ⟨Main.pendDir u1, u1.filename⟩)
        ⟨Main.plexDir u1, u1.original_filename⟩ c1)
      ⟨Main.pendDir u2, u2.filename⟩ = some c2 := by
    rw [fsLookup_insert_ne _ _ _ _ hdst1_ne_src2,
        fsLookup_erase_ne _ _ _ hsrc12]
    simp [fsLookup, hsrc12]
  have h2 : Main.approve_upload u2.id n2 true
      ⟨fsInsert (fsErase [(⟨Main.pendDir u1, u1.filename⟩, c1),
            (⟨Main.pendDir u2, u2.filename⟩, c2)] ⟨Main.pendDir u1, u1.filename⟩)
          ⟨Main.plexDir u1, u1.original_filename⟩ c1,
        Main.dbUpdate [u1, u2] u1.id fun r =>
          { r with status := "approved", reviewed_date := some n1 }⟩
      = (.ok,
         ⟨fsInsert (fsErase (fsInsert (fsErase [(⟨Main.pendDir u1, u1.filename⟩, c1),
                (⟨Main.pendDir u2, u2.filename⟩, c2)] ⟨Main.pendDir u1, u1.filename⟩)
              ⟨Main.plexDir u1, u1.original_filename⟩ c1) ⟨Main.pendDir u2, u2.filename⟩)
            ⟨Main.plexDir u2, u2.original_filename⟩ c2,
          Main.dbUpdate (Main.dbUpdate [u1, u2] u1.id fun r =>
              { r with status := "approved", reviewed_date := some n1 }) u2.id fun r =>
            { r with status := "approved", reviewed_date := some n2 }⟩,
         [Event.plexScan (Main.plexLib u2),
          Event.notifyApproval u2.uploader_email u2.original_filename]) := by
    simp [Main.approve_upload, hfind2, hp2, hlk2]
  have hpd : Main.plexDir u2 = Main.plexDir u1 := by
    unfold Main.plexDir
    rw [hmt]
  have hdsteq : (⟨Main.plexDir u2, u2.original_filename⟩ : FPath)
      = ⟨Main.plexDir u1, u1.original_filename⟩ := by
    rw [hpd, ← horig]
  -- routes side
  have hrsrc12 : (⟨Routes.rPendDir ru1, ru1.filename⟩ : FPath)
      ≠ ⟨Routes.rPendDir ru2, ru2.filename⟩ :=
    fun h => hrfn (congrArg FPath.name h)
  have hrfind1 : Routes.rdbFind [ru1, ru2] ru1.id = some ru1 := by
    simp [Routes.rdbFind]
  have hrlk1 : fsLookup [(⟨Routes.rPendDir ru1, ru1.filename⟩, rc1),
      (⟨Routes.rPendDir ru2, ru2.filename⟩, rc2)] ⟨Routes.rPendDir ru1, ru1.filename⟩
      = some rc1 := by
    simp [fsLookup]
  have hr1 : Routes.approve ru1.id true
      ⟨3, [(⟨Routes.rPendDir ru1, ru1.filename⟩, rc1),
           (⟨Routes.rPendDir ru2, ru2.filename⟩, rc2)], [ru1, ru2]⟩
      = (.ok,
         ⟨3, fsInsert (fsErase [(⟨Routes.rPendDir ru1, ru1.filename⟩, rc1),
              (⟨Routes.rPendDir ru2, ru2.filename⟩, rc2)] ⟨Routes.rPendDir ru1, ru1.filename⟩)
            ⟨Routes.rPlexDir ru1, ru1.original_filename⟩ rc1,
          Routes.rdbUpdate [ru1, ru2] ru1.id fun r => { r with status := "approved" }⟩,
         [Event.notifyApproval ru1.uploader_email ru1.original_filename,
          Event.discordMsg ru1.original_filename,
          Event.plexScan "all"]) := by
    simp [Routes.approve, hrfind1, hrlk1]
  have hrfind2 : Routes.rdbFind
      (Routes.rdbUpdate [ru1, ru2] ru1.id fun r => { r with status := "approved" }) ru2.id
      = some ru2 := by
    have hrne21 : ¬ (ru2.id = ru1.id) := fun h => hrid h.symm
    simp [Routes.rdbUpdate, Routes.rdbFind, hrne21, hrid]
  have hrdst1_ne_src2 : (⟨Routes.rPlexDir ru1, ru1.original_filename⟩ : FPath)
      ≠ ⟨Routes.rPendDir ru2, ru2.filename⟩ :=
    fun h => Routes.rPendDir_ne_rPlexDir ru2 ru1 (congrArg FPath.area h).symm
  have hrlk2 : fsLookup
      (fsInsert (fsErase [(⟨Routes.rPendDir ru1, ru1.filename⟩, rc1),
          (⟨Routes.rPendDir ru2, ru2.filename⟩, rc2)] ⟨Routes.rPendDir ru1, ru1.filename⟩)
        ⟨Routes.rPlexDir ru1, ru1.original_filename⟩ rc1)
      ⟨Routes.rPendDir ru2, ru2.filename⟩ = some rc2 := by
    rw [fsLookup_insert_ne _ _ _ _ hrdst1_ne_src2,
        fsLookup_erase_ne _ _ _ hrsrc12]
    simp [fsLookup, hrsrc12]
  have hr2 : Routes.approve ru2.id true
      ⟨3, fsInsert (fsErase [(⟨Routes.rPendDir ru1, ru1.filename⟩, rc1),
            (⟨Routes.rPendDir ru2, ru2.filename⟩, rc2)] ⟨Routes.rPendDir ru1, ru1.filename⟩)
          ⟨Routes.rPlexDir ru1, ru1.original_filename⟩ rc1,
        Routes.rdbUpdate [ru1, ru2] ru1.id fun r => { r with status := "approved" }⟩
      = (.ok,
         ⟨3, fsInsert (fsErase (fsInsert (fsErase [(⟨Routes.rPendDir ru1, ru1.filename⟩, rc1),
                (⟨Routes.rPendDir ru2, ru2.filename⟩, rc2)] ⟨Routes.rPendDir ru1, ru1.filename⟩)
              ⟨Routes.rPlexDir ru1, ru1.original_filename⟩ rc1) ⟨Routes.rPendDir ru2, ru2.filename⟩)
            ⟨Routes.rPlexDir ru2, ru2.original_filename⟩ rc2,
          Routes.rdbUpdate (Routes.rdbUpdate [ru1, ru2] ru1.id
              fun r => { r with status := "approved" }) ru2.id
            fun r => { r with status := "approved" }⟩,
         [Event.notifyApproval ru2.uploader_email ru2.original_filename,
          Event.discordMsg ru2.original_filename,
          Event.plexScan "all"]) := by
    simp [Routes.approve, hrfind2, hrlk2]
  have hrpd : Routes.rPlexDir ru2 = Routes.rPlexDir ru1 := by
    unfold Routes.rPlexDir
    rw [hrmt]
  have hrdsteq : (⟨Routes.rPlexDir ru2, ru2.original_filename⟩ : FPath)
      = ⟨Routes.rPlexDir ru1, ru1.original_filename⟩ := by
    rw [hrpd, ← hrorig]
  refine ⟨by rw [h1], ?_, ?_, ?_, by rw [hr1], ?_, ?_, ?_⟩
  · rw [h1]
    exact fsLookup_insert_self _ _ _
  · rw [h1]
    dsimp only
    rw [h2]
  · rw [h1]
    dsimp only
    rw [h2]
    dsimp only
    rw [hdsteq]
    exact fsLookup_insert_self _ _ _
  · rw [hr1]
    exact fsLookup_insert_self _ _ _
  · rw [hr1]
    dsimp only
    rw [hr2]
  · rw [hr1]
    dsimp only
    rw [hr2]
    dsimp only
    rw [hrdsteq]
    exact fsLookup_insert_self _ _ _

end Bozloader

namespace Bozloader

/-- Witness for `approve_overwrites_same_published_name`: approving
`wt10a` then `wt10b` (both named `Same.mkv`) replaces the published
`Same.mkv` content `CA` with `CB`, and likewise `RA` with `RB` through the
routes module. -/
theorem approve_overwrites_same_published_name_witness :
    wt10a.id ≠ wt10b.id
    ∧ wt10a.filename ≠ wt10b.filename
    ∧ wt10a.original_filename = wt10b.original_filename
    ∧ wt10a.media_type = wt10b.media_type
    ∧ wt10a.status = "pending"
    ∧ wt10b.status = "pending"
    ∧ wt10ra.id ≠ wt10rb.id
    ∧ wt10ra.filename ≠ wt10rb.filename
    ∧ wt10ra.original_filename = wt10rb.original_filename
    ∧ wt10ra.media_type = wt10rb.media_type
    ∧ wt10ra.status = "pending"
    ∧ wt10rb.status = "pending"
    ∧ ((Main.approve_upload wt10a.id 41 true wt10s).1 = .ok
       ∧ fsLookup (Main.approve_upload wt10a.id 41 true wt10s).2.1.fs
           ⟨Main.plexDir wt10a, wt10a.original_filename⟩ = some "CA"
       ∧ (Main.approve_upload wt10b.id 42 true (Main.approve_upload wt10a.id 41 true wt10s).2.1).1 = .ok
       ∧ fsLookup (Main.approve_upload wt10b.id 42 true (Main.approve_upload wt10a.id 41 true wt10s).2.1).2.1.fs
           ⟨Main.plexDir wt10a, wt10a.original_filename⟩ = some "CB"
       ∧ (Routes.approve wt10ra.id true wt10rrs).1 = .ok
       ∧ fsLookup (Routes.approve wt10ra.id true wt10rrs).2.1.fs
           ⟨Routes.rPlexDir wt10ra, wt10ra.original_filename⟩ = some "RA"
       ∧ (Routes.approve wt10rb.id true (Routes.approve wt10ra.id true wt10rrs).2.1).1 = .ok
       ∧ fsLookup (Routes.approve wt10rb.id true (Routes.approve wt10ra.id true wt10rrs).2.1).2.1.fs
           ⟨Routes.rPlexDir wt10ra, wt10ra.original_filename⟩ = some "RB") :=
  ⟨by decide, by decide, by decide, by decide, by decide, by decide,
   by decide, by decide, by decide, by decide, by decide, by decide,
   approve_overwrites_same_published_name wt10a wt10b "CA" "CB" 41 42
     wt10s rfl (by decide) (by decide) (by decide) (by decide) (by decide)
     (by decide) wt10ra wt10rb "RA" "RB" wt10rrs rfl (by decide) (by decide)
     (by decide) (by decide) (by decide) (by decide)⟩

end Bozloader
